import Mathlib

/-!
Verification of the expense-tracker service (Go, `main.go`) against its
natural-language specification.  The session-authentication layer, the
password/credential flow and the recurring-expense materializer are embedded
shallowly: SQL tables become Lean lists, `time.Time` values become integer
seconds (the store's `timeFormat` has second resolution), and the handlers
become pure functions over that state.  Machine integers never overflow in
the modelled paths, so `Int`/`Nat` are used directly; SHA-256 works on
32-bit words reduced explicitly modulo `2 ^ 32`.
-/

set_option maxRecDepth 8192

namespace ExpenseTracker

/-! ## SHA-256 (`crypto/sha256`) and encodings, as used by the session layer.
`hashSessionToken` (main.go:588-591) is `hex.EncodeToString(sha256.Sum256(token))`;
`generateSessionToken` (main.go:579-586) base64-RawURL-encodes 32 random bytes. -/

/-- Reduce to a 32-bit word, modelling `uint32` arithmetic. -/
def w32 (x : Nat) : Nat := x % 4294967296

/-- Right rotation of a 32-bit word by `n` bits. -/
def rotr32 (n x : Nat) : Nat := (x >>> n) ||| ((x % 2 ^ n) <<< (32 - n))

/-- SHA-256 choice function `Ch(x,y,z)`. -/
def shaCh (x y z : Nat) : Nat := (x &&& y) ^^^ ((x ^^^ 4294967295) &&& z)

/-- SHA-256 majority function `Maj(x,y,z)`. -/
def shaMaj (x y z : Nat) : Nat := (x &&& y) ^^^ (x &&& z) ^^^ (y &&& z)

/-- SHA-256 big sigma-0. -/
def bigSigma0 (x : Nat) : Nat := rotr32 2 x ^^^ rotr32 13 x ^^^ rotr32 22 x

/-- SHA-256 big sigma-1. -/
def bigSigma1 (x : Nat) : Nat := rotr32 6 x ^^^ rotr32 11 x ^^^ rotr32 25 x

/-- SHA-256 small sigma-0. -/
def smallSigma0 (x : Nat) : Nat := rotr32 7 x ^^^ rotr32 18 x ^^^ (x >>> 3)

/-- SHA-256 small sigma-1. -/
def smallSigma1 (x : Nat) : Nat := rotr32 17 x ^^^ rotr32 19 x ^^^ (x >>> 10)

/-- The 64 SHA-256 round constants, in decimal. -/
def shaK : List Nat :=
  [1116352408, 1899447441, 3049323471, 3921009573, 961987163, 1508970993,
   2453635748, 2870763221, 3624381080, 310598401, 607225278, 1426881987,
   1925078388, 2162078206, 2614888103, 3248222580, 3835390401, 4022224774,
   264347078, 604807628, 770255983, 1249150122, 1555081692, 1996064986,
   2554220882, 2821834349, 2952996808, 3210313671, 3336571891, 3584528711,
   113926993, 338241895, 666307205, 773529912, 1294757372, 1396182291,
   1695183700, 1986661051, 2177026350, 2456956037, 2730485921, 2820302411,
   3259730800, 3345764771, 3516065817, 3600352804, 4094571909, 275423344,
   430227734, 506948616, 659060556, 883997877, 958139571, 1322822218,
   1537002063, 1747873779, 1955562222, 2024104815, 2227730452, 2361852424,
   2428436474, 2756734187, 3204031479, 3329325298]

/-- The SHA-256 working state: eight 32-bit words. -/
structure Sha256State where
  a : Nat
  b : Nat
  c : Nat
  d : Nat
  e : Nat
  f : Nat
  g : Nat
  h : Nat
deriving DecidableEq, Repr

/-- The SHA-256 initial hash value, in decimal. -/
def shaInit : Sha256State :=
  ⟨1779033703, 3144134277, 1013904242, 2773480762,
   1359893119, 2600822924, 528734635, 1541459225⟩

/-- Big-endian bytes of `v`, `n` bytes wide. -/
def beBytes (n v : Nat) : List Nat := (List.range n).map (fun i => (v >>> (8 * (n - 1 - i))) % 256)

/-- The sixteen big-endian 32-bit words of a 64-byte block. -/
def toWords (block : List Nat) : List Nat :=
  (List.range 16).map (fun i =>
    ((block.getD (4 * i) 0) <<< 24) ||| ((block.getD (4 * i + 1) 0) <<< 16) |||
    ((block.getD (4 * i + 2) 0) <<< 8) ||| block.getD (4 * i + 3) 0)

/-- The 64-entry SHA-256 message schedule of a block. -/
def schedule (block : List Nat) : List Nat :=
  (List.range 48).foldl
    (fun ws _ =>
      ws ++ [w32 (smallSigma1 (ws.getD (ws.length - 2) 0) + ws.getD (ws.length - 7) 0 +
                  smallSigma0 (ws.getD (ws.length - 15) 0) + ws.getD (ws.length - 16) 0)])
    (toWords block)

/-- One SHA-256 compression-function application. -/
def compressBlock (st : Sha256State) (block : List Nat) : Sha256State :=
  let ws := schedule block
  let fin := (List.range 64).foldl
    (fun s i =>
      let t1 := w32 (s.h + bigSigma1 s.e + shaCh s.e s.f s.g + shaK.getD i 0 + ws.getD i 0)
      let t2 := w32 (bigSigma0 s.a + shaMaj s.a s.b s.c)
      ⟨w32 (t1 + t2), s.a, s.b, s.c, w32 (s.d + t1), s.e, s.f, s.g⟩)
    st
  ⟨w32 (st.a + fin.a), w32 (st.b + fin.b), w32 (st.c + fin.c), w32 (st.d + fin.d),
   w32 (st.e + fin.e), w32 (st.f + fin.f), w32 (st.g + fin.g), w32 (st.h + fin.h)⟩

/-- SHA-256 padding: `0x80`, zeros to 56 mod 64, then the 64-bit bit length. -/
def shaPad (msg : List Nat) : List Nat :=
  msg ++ [128] ++ List.replicate ((119 - msg.length % 64) % 64) 0 ++
    beBytes 8 ((8 * msg.length) % 2 ^ 64)

/-- Split a byte list into 64-byte blocks (`fuel` bounds the recursion). -/
def toBlocks (fuel : Nat) (l : List Nat) : List (List Nat) :=
  match fuel with
  | 0 => []
  | fuel + 1 =>
    match l with
    | [] => []
    | _ => l.take 64 :: toBlocks fuel (l.drop 64)

/-- SHA-256 digest (32 bytes) of a byte message, per `crypto/sha256.Sum256`. -/
def sha256 (msg : List Nat) : List Nat :=
  let padded := shaPad msg
  let fin := (toBlocks padded.length padded).foldl compressBlock shaInit
  beBytes 4 fin.a ++ beBytes 4 fin.b ++ beBytes 4 fin.c ++ beBytes 4 fin.d ++
  beBytes 4 fin.e ++ beBytes 4 fin.f ++ beBytes 4 fin.g ++ beBytes 4 fin.h

/-- Lower-case hexadecimal digit, per `encoding/hex`. -/
def hexDigit (n : Nat) : Char := "0123456789abcdef".data.getD n '0'

/-- Lower-case hex encoding of a byte list, per `hex.EncodeToString`. -/
def hexEncode (bs : List Nat) : String := ⟨bs.flatMap (fun b => [hexDigit (b / 16), hexDigit (b % 16)])⟩

/-- UTF-8 encoding of one character, as Go's `[]byte(string)` conversion produces. -/
def charBytes (c : Char) : List Nat :=
  let n := c.toNat
  if n < 128 then [n]
  else if n < 2048 then [192 ||| (n >>> 6), 128 ||| (n &&& 63)]
  else if n < 65536 then [224 ||| (n >>> 12), 128 ||| ((n >>> 6) &&& 63), 128 ||| (n &&& 63)]
  else [240 ||| (n >>> 18), 128 ||| ((n >>> 12) &&& 63), 128 ||| ((n >>> 6) &&& 63), 128 ||| (n &&& 63)]

/-- UTF-8 bytes of a string, as Go's `[]byte(token)`. -/
def utf8Bytes (s : String) : List Nat := s.data.flatMap charBytes

/-- `hashSessionToken` (main.go:588-591): hex-encoded SHA-256 of the token's bytes. -/
def hashSessionToken (token : String) : String := hexEncode (sha256 (utf8Bytes token))

/-- The base64url alphabet used by `base64.RawURLEncoding`. -/
def b64c (n : Nat) : Char :=
  "ABCDEFGHIJKLMNOPQRSTUVWXYZabcdefghijklmnopqrstuvwxyz0123456789-_".data.getD n 'A'

/-- Unpadded base64url character stream of a byte list, per `base64.RawURLEncoding`. -/
def base64RawUrlChars : List Nat → List Char
  | [] => []
  | [a] => [b64c (a >>> 2), b64c ((a &&& 3) <<< 4)]
  | [a, b] => [b64c (a >>> 2), b64c (((a &&& 3) <<< 4) ||| (b >>> 4)), b64c ((b &&& 15) <<< 2)]
  | a :: b :: c :: rest =>
    b64c (a >>> 2) :: b64c (((a &&& 3) <<< 4) ||| (b >>> 4)) ::
    b64c (((b &&& 15) <<< 2) ||| (c >>> 6)) :: b64c (c &&& 63) :: base64RawUrlChars rest

/-- `base64.RawURLEncoding.EncodeToString`. -/
def base64RawUrlEncode (bs : List Nat) : String := ⟨base64RawUrlChars bs⟩

/-- `generateSessionToken` (main.go:579-586) on an explicit 32-byte random buffer:
returns the raw token (base64url of the buffer) and its storage hash. -/
def generateSessionToken (buf : List Nat) : String × String :=
  let raw := base64RawUrlEncode buf
  (raw, hashSessionToken raw)

/-! ## Session store model.
The `sessions` table (`token_hash` primary key, `user_id`, `expires_at`) becomes a
list of rows; timestamps are integer seconds (the stored `timeFormat` has second
resolution).  `sessionTTL = 24h` and `sessionRefreshDelta = sessionTTL / 3`
(main.go:89-96). -/

/-- Session TTL in seconds: 24 hours (main.go:91). -/
def sessionTTL : Int := 86400

/-- Refresh threshold: `sessionTTL / 3` (main.go:92). -/
def sessionRefreshDelta : Int := sessionTTL / 3

/-- One row of the `sessions` table. -/
structure Session where
  tokenHash : String
  userId : Int
  expiresAt : Int
deriving DecidableEq, Repr

/-- `SELECT ... FROM sessions WHERE token_hash = ?` (token_hash is the primary key). -/
def lookupSession (t : List Session) (tokenHash : String) : Option Session :=
  t.find? (fun s => s.tokenHash == tokenHash)

/-- `DELETE FROM sessions WHERE token_hash = ?`. -/
def deleteByHash (t : List Session) (tokenHash : String) : List Session :=
  t.filter (fun s => !(s.tokenHash == tokenHash))

/-- `DELETE FROM sessions WHERE user_id = ?`. -/
def deleteByUser (t : List Session) (userId : Int) : List Session :=
  t.filter (fun s => !(s.userId == userId))

/-- `UPDATE sessions SET expires_at = ? WHERE token_hash = ?`. -/
def updateExpiry (t : List Session) (tokenHash : String) (expiresAt : Int) : List Session :=
  t.map (fun s => if s.tokenHash == tokenHash then ⟨s.tokenHash, s.userId, expiresAt⟩ else s)

/-- The committed table effect of `issueSession` (main.go:527-544): within one
transaction, delete every session of `userId`, then insert the new row. -/
def issueSessionTable (t : List Session) (userId : Int) (tokenHash : String) (expiresAt : Int) :
    List Session :=
  deleteByUser t userId ++ [⟨tokenHash, userId, expiresAt⟩]

/-- What the server does to the client's cookie in a response. -/
inductive CookieAction where
  | none
  | clear
  | set (token : String) (expires : Int)
deriving DecidableEq, Repr

/-- `issueSession` (main.go:519-548) on an explicit random buffer: commits the
delete-then-insert and sets the session cookie to the raw token. -/
def issueSession (buf : List Nat) (userId : Int) (now : Int) (t : List Session) :
    List Session × CookieAction :=
  let rt := generateSessionToken buf
  (issueSessionTable t userId rt.2 (now + sessionTTL), .set rt.1 (now + sessionTTL))

/-- Result of `authenticateAndRefreshSession`: whether the wrapped handler may run,
the resolved user, the HTTP status written on rejection (200 on success), the
resulting table and the cookie action. -/
structure AuthResult where
  ok : Bool
  userId : Int
  status : Nat
  sessions : List Session
  cookie : CookieAction
deriving DecidableEq, Repr

/-- The body of `authenticateAndRefreshSession` after the cookie has been read and
hashed (main.go:478-516): `cookieValue` is the presented raw token and `tokenHash`
its hash.  An absent row rejects 401 and clears the cookie; a row with
`expires_at` strictly before `now` is deleted, the cookie cleared, 401 returned;
a live row within `sessionRefreshDelta` of expiry has its expiry extended to
`now + sessionTTL` and the cookie re-set with the same raw token; otherwise
nothing is written. -/
def authCore (cookieValue tokenHash : String) (t : List Session) (now : Int) : AuthResult :=
  match lookupSession t tokenHash with
  | Option.none => ⟨false, 0, 401, t, .clear⟩
  | Option.some s =>
    if s.expiresAt < now then
      ⟨false, 0, 401, deleteByHash t tokenHash, .clear⟩
    else if s.expiresAt - now < sessionRefreshDelta then
      ⟨true, s.userId, 200, updateExpiry t tokenHash (now + sessionTTL),
        .set cookieValue (now + sessionTTL)⟩
    else
      ⟨true, s.userId, 200, t, .none⟩

/-- `authenticateAndRefreshSession` (main.go:471-517): a missing or empty cookie is
rejected 401 before touching the store; otherwise the cookie value is hashed and
`authCore` runs. -/
def authenticateAndRefreshSession (cookie : Option String) (t : List Session) (now : Int) :
    AuthResult :=
  match cookie with
  | Option.none => ⟨false, 0, 401, t, .none⟩
  | Option.some v =>
    if v = "" then ⟨false, 0, 401, t, .none⟩
    else authCore v (hashSessionToken v) t now

/-- Result of a `withAuth`-wrapped request: either the handler ran or the
middleware rejected with a status. -/
inductive HandlerOutcome (α : Type) where
  | ran (userId : Int) (result : α)
  | rejected (status : Nat)
deriving DecidableEq

/-- `withAuth` (main.go:461-469): the wrapped handler runs only when
authentication succeeds. -/
def withAuth {α : Type} (handler : Int → α) (cookie : Option String) (t : List Session)
    (now : Int) : HandlerOutcome α :=
  let ar := authenticateAndRefreshSession cookie t now
  if ar.ok then .ran ar.userId (handler ar.userId) else .rejected ar.status

/-- Result of `logoutHandler`: status, cookie action and resulting table. -/
structure LogoutResult where
  status : Nat
  cookie : CookieAction
  sessions : List Session
deriving DecidableEq, Repr

/-- `logoutHandler` for POST (main.go:448-456): if a non-empty cookie is present,
delete its row (a store error is only logged); always clear the cookie and
answer 204. -/
def logoutHandler (cookie : Option String) (deleteFails : Bool) (t : List Session) :
    LogoutResult :=
  match cookie with
  | Option.none => ⟨204, .clear, t⟩
  | Option.some v =>
    if v = "" then ⟨204, .clear, t⟩
    else if deleteFails then ⟨204, .clear, t⟩
    else ⟨204, .clear, deleteByHash t (hashSessionToken v)⟩

/-- One session-affecting operation, for sequences of register/login/logout/
authenticated requests.  `issue` covers both register and login (both call
`issueSession`). -/
inductive SessionOp where
  | issue (buf : List Nat) (userId : Int) (now : Int)
  | logout (cookie : Option String) (deleteFails : Bool)
  | validate (cookie : Option String) (now : Int)

/-- The table effect of one operation. -/
def applyOp (t : List Session) : SessionOp → List Session
  | .issue buf userId now => (issueSession buf userId now t).1
  | .logout cookie deleteFails => (logoutHandler cookie deleteFails t).sessions
  | .validate cookie now => (authenticateAndRefreshSession cookie t now).sessions

/-- The sessions table after a sequence of operations from an empty store. -/
def runOps (ops : List SessionOp) : List Session := ops.foldl applyOp []

/-- Number of session rows owned by `userId`. -/
def countUser (t : List Session) (userId : Int) : Nat :=
  (t.filter (fun s => s.userId == userId)).length

/-! ## Login and registration. -/

/-- One row of the `users` table. -/
structure UserRow where
  id : Int
  email : String
  passwordHash : String
deriving DecidableEq, Repr

/-- `SELECT id, password_hash FROM users WHERE email = ?`. -/
def findUser (users : List UserRow) (email : String) : Option UserRow :=
  users.find? (fun u => u.email == email)

/-- A response body: either a plain `http.Error` text or the JSON-encoded
`authResponse{id, email}`. -/
inductive RespBody where
  | text (s : String)
  | authJson (id : Int) (email : String)
deriving DecidableEq, Repr

/-- An HTTP response as status plus body. -/
structure HttpResponse where
  status : Nat
  body : RespBody
deriving DecidableEq, Repr

/-- The credential check of `loginHandler` (main.go:415-430), after body decoding,
email sanitization and the empty-password check have passed: `verify` is
`bcrypt.CompareHashAndPassword` (true on match).  An unknown email and a wrong
password produce the same `401 Invalid credentials` response. -/
def loginResult (users : List UserRow) (verify : String → String → Bool)
    (email password : String) : HttpResponse :=
  match findUser users email with
  | Option.none => ⟨401, .text "Invalid credentials"⟩
  | Option.some u =>
    if verify u.passwordHash password then ⟨200, .authJson u.id email⟩
    else ⟨401, .text "Invalid credentials"⟩

/-- Go's `unicode.IsSpace`, as used by `strings.TrimSpace`. -/
def goIsSpace (c : Char) : Bool :=
  c = ' ' ∨ c = '\t' ∨ c = '\n' ∨ c.toNat = 11 ∨ c.toNat = 12 ∨ c = '\r' ∨
  c.toNat = 133 ∨ c.toNat = 160 ∨ c.toNat = 5760 ∨
  (8192 ≤ c.toNat ∧ c.toNat ≤ 8202) ∨ c.toNat = 8232 ∨ c.toNat = 8233 ∨
  c.toNat = 8239 ∨ c.toNat = 8287 ∨ c.toNat = 12288

/-- `strings.TrimSpace`: drop leading and trailing white space. -/
def trimSpace (s : String) : String :=
  ⟨((s.data.dropWhile goIsSpace).reverse.dropWhile goIsSpace).reverse⟩

/-- `validatePassword` (main.go:634-646): `String.length` counts code points,
matching `utf8.RuneCountInString`.  Returns the error message, or `none` when
the password is accepted. -/
def validatePassword (password : String) : Option String :=
  if trimSpace password = "" then Option.some "Password is required"
  else if password.length < 12 then Option.some "Password must be at least 12 characters"
  else if password.length > 128 then Option.some "Password must be 128 characters or fewer"
  else Option.none

/-- Modelled from the spec: the acceptance condition as the spec words it —
non-empty after trimming whitespace, length in [12, 128] Unicode code points. -/
def passwordSpecAccepts (password : String) : Prop :=
  trimSpace password ≠ "" ∧ 12 ≤ password.length ∧ password.length ≤ 128

/-- The control flow of `registerHandler` (main.go:334-391) up to the store
insert, with oracles for the fallible collaborators: returns the response status
and whether `bcrypt.GenerateFromPassword` was ever reached. -/
def registerOutcome (emailOk : Bool) (password : String)
    (hashFails dupEmail storeFails : Bool) : Nat × Bool :=
  if !emailOk then (400, false)
  else
    match validatePassword password with
    | Option.some _ => (400, false)
    | Option.none =>
      if hashFails then (500, true)
      else if dupEmail then (409, true)
      else if storeFails then (500, true)
      else (201, true)

/-! ## Calendar arithmetic and the recurring-expense materializer.
`time.AddDate` builds `Date(y+years, m+months, d+days, ...)`, which first
normalizes the month into `[1, 12]` carrying into the year, then treats the
(possibly out-of-range) day as an offset from day 1 of that month in the
proleptic Gregorian calendar.  `daysFromCivil`/`civilFromDays` convert between
a date and its day number with floor division. -/

/-- A calendar date (the materializer works at day granularity; `next_due_date`
and expense dates are compared and stored to the day in the modelled paths). -/
structure GoDate where
  year : Int
  month : Int
  day : Int
deriving DecidableEq, Repr

/-- Go's `norm(hi, lo, base)`: carry `lo` into `hi` so that `0 ≤ lo < base`. -/
def goNorm (hi lo base : Int) : Int × Int :=
  let n1 : Int := if lo < 0 then (-lo - 1) / base + 1 else 0
  let hi1 := hi - n1
  let lo1 := lo + n1 * base
  let n2 : Int := if lo1 ≥ base then lo1 / base else 0
  (hi1 + n2, lo1 - n2 * base)

/-- Day number of a Gregorian date (days since 1970-01-01, proleptic). -/
def daysFromCivil (y m d : Int) : Int :=
  let y1 := if m ≤ 2 then y - 1 else y
  let era := Int.fdiv y1 400
  let yoe := y1 - era * 400
  let mp := if 2 < m then m - 3 else m + 9
  let doy := Int.fdiv (153 * mp + 2) 5 + d - 1
  let doe := yoe * 365 + Int.fdiv yoe 4 - Int.fdiv yoe 100 + doy
  era * 146097 + doe - 719468

/-- Gregorian date of a day number (inverse of `daysFromCivil`). -/
def civilFromDays (days : Int) : GoDate :=
  let z := days + 719468
  let era := Int.fdiv z 146097
  let doe := z - era * 146097
  let yoe := Int.fdiv (doe - Int.fdiv doe 1460 + Int.fdiv doe 36524 - Int.fdiv doe 146096) 365
  let y := yoe + era * 400
  let doy := doe - (365 * yoe + Int.fdiv yoe 4 - Int.fdiv yoe 100)
  let mp := Int.fdiv (5 * doy + 2) 153
  let d := doy - Int.fdiv (153 * mp + 2) 5 + 1
  let m := if mp < 10 then mp + 3 else mp - 9
  ⟨if m ≤ 2 then y + 1 else y, m, d⟩

/-- `time.AddDate(years, months, days)`: normalize the month, then resolve the
day offset in the proleptic Gregorian calendar. -/
def goAddDate (dt : GoDate) (years months days : Int) : GoDate :=
  let ym := goNorm (dt.year + years) (dt.month + months - 1) 12
  civilFromDays (daysFromCivil ym.1 (ym.2 + 1) 1 + (dt.day - 1) + days)

/-- `a ≤ b` on dates, as the store's lexicographic timestamp comparison orders
them chronologically. -/
def dateLE (a b : GoDate) : Bool :=
  daysFromCivil a.year a.month a.day ≤ daysFromCivil b.year b.month b.day

/-- ASCII lowering of one character; the frequencies compared by the
materializer's `strings.ToLower` switch are ASCII words. -/
def asciiLower (c : Char) : Char :=
  if 'A' ≤ c ∧ c ≤ 'Z' then Char.ofNat (c.toNat + 32) else c

/-- `strings.ToLower` on the ASCII range. -/
def lowerStr (s : String) : String := ⟨s.data.map asciiLower⟩

/-- One row of `recurring_expenses`.  `amount` is a `float64` that the modelled
paths only copy, never compute with; it is carried as an integer code. -/
structure RecurringExpenseRow where
  id : Int
  userId : Int
  amount : Int
  category : String
  note : String
  frequency : String
  nextDueDate : GoDate
deriving DecidableEq, Repr

/-- One row of `expenses` as the materializer inserts it (main.go:1444). -/
structure ExpenseRow where
  amount : Int
  category : String
  note : String
  date : GoDate
  userId : Int
deriving DecidableEq, Repr

/-- The switch of `processRecurringExpenses` (main.go:1450-1462): advance one
period by frequency; an unrecognized frequency falls to the default `+1 day`. -/
def advanceNextDue (frequency : String) (d : GoDate) : GoDate :=
  if lowerStr frequency = "daily" then goAddDate d 0 0 1
  else if lowerStr frequency = "weekly" then goAddDate d 0 0 7
  else if lowerStr frequency = "monthly" then goAddDate d 0 1 0
  else if lowerStr frequency = "yearly" then goAddDate d 1 0 0
  else goAddDate d 0 0 1

/-- The store state the materializer touches. -/
structure StoreState where
  expenses : List ExpenseRow
  recurring : List RecurringExpenseRow
deriving DecidableEq, Repr

/-- The committed effect of one materialized definition: insert the copied
expense dated at the pre-advance `next_due_date`, and advance the definition's
`next_due_date` by one period. -/
def applyRecurring (st : StoreState) (re : RecurringExpenseRow) : StoreState :=
  ⟨st.expenses ++ [⟨re.amount, re.category, re.note, re.nextDueDate, re.userId⟩],
   st.recurring.map (fun r =>
     if r.id == re.id then
       ⟨r.id, r.userId, r.amount, r.category, r.note, r.frequency,
        advanceNextDue re.frequency re.nextDueDate⟩
     else r)⟩

/-- Which store steps fail while processing one definition. -/
structure RecFailures where
  beginFails : Bool
  insertFails : Bool
  updateFails : Bool
  commitFails : Bool
deriving DecidableEq, Repr

/-- No store failure. -/
def noRecFailures : RecFailures := ⟨false, false, false, false⟩

/-- The loop body of `processRecurringExpenses` (main.go:1438-1473) for one
scanned definition: any failing step rolls the transaction back (logged only),
leaving the store unchanged; otherwise both writes commit together. -/
def processOne (fl : RecFailures) (st : StoreState) (re : RecurringExpenseRow) : StoreState :=
  if fl.beginFails then st
  else if fl.insertFails then st
  else if fl.updateFails then st
  else if fl.commitFails then st
  else applyRecurring st re

/-- `processRecurringExpenses` (main.go:1415-1479): snapshot the due definitions
(`next_due_date <= now`), then process each in turn; `oracle` gives the store
failures each definition's transaction meets.  Always returns a state — no
failure escapes to a caller. -/
def processRecurringExpenses (oracle : Int → RecFailures) (now : GoDate) (st : StoreState) :
    StoreState :=
  (st.recurring.filter (fun r => dateLE r.nextDueDate now)).foldl
    (fun s re => processOne (oracle re.id) s re) st

/-! ### Length facts about the encodings. -/

theorem beBytes_length (n v : Nat) : (beBytes n v).length = n := by
  simp [beBytes]

theorem sha256_length (msg : List Nat) : (sha256 msg).length = 32 := by
  simp [sha256, beBytes_length]

theorem hexEncode_length (bs : List Nat) : (hexEncode bs).length = 2 * bs.length := by
  show (bs.flatMap (fun b => [hexDigit (b / 16), hexDigit (b % 16)])).length = 2 * bs.length
  induction bs with
  | nil => rfl
  | cons b t ih => simp [List.flatMap_cons, ih]; ring

theorem hashSessionToken_length (token : String) : (hashSessionToken token).length = 64 := by
  show (hexEncode (sha256 (utf8Bytes token))).length = 64
  rw [hexEncode_length, sha256_length]

theorem base64RawUrlChars_length_chunk (n : Nat) :
    ∀ bs : List Nat, bs.length = 3 * n + 2 → (base64RawUrlChars bs).length = 4 * n + 3 := by
  induction n with
  | zero =>
    intro bs hl
    match bs with
    | [] => simp at hl
    | [_] => simp at hl
    | [_, _] => rfl
    | _ :: _ :: _ :: t => simp at hl
  | succ n ih =>
    intro bs hl
    match bs with
    | [] => simp at hl
    | [_] => simp at hl
    | [_, _] => simp at hl
    | a :: b :: c :: t =>
      have ht : t.length = 3 * n + 2 := by simp at hl; omega
      simp [base64RawUrlChars, ih t ht]
      try omega

theorem base64RawUrlEncode_length32 (bs : List Nat) (hl : bs.length = 32) :
    (base64RawUrlEncode bs).length = 43 := by
  show (base64RawUrlChars bs).length = 43
  have := base64RawUrlChars_length_chunk 10 bs (by omega)
  omega

/-! ### Helper lemmas on the session table. -/

theorem countUser_filter_le (t : List Session) (p : Session → Bool) (uid : Int) :
    countUser (t.filter p) uid ≤ countUser t uid := by
  have h : List.Sublist ((t.filter p).filter (fun s => s.userId == uid))
      (t.filter (fun s => s.userId == uid)) :=
    List.Sublist.filter _ (List.filter_sublist t)
  exact h.length_le

theorem countUser_deleteByUser_self (t : List Session) (uid : Int) :
    countUser (deleteByUser t uid) uid = 0 := by
  induction t with
  | nil => rfl
  | cons s t ih =>
    by_cases h : s.userId = uid <;>
      simpa [countUser, deleteByUser, List.filter_cons, h] using ih

theorem countUser_updateExpiry (t : List Session) (tokenHash : String) (e : Int) (uid : Int) :
    countUser (updateExpiry t tokenHash e) uid = countUser t uid := by
  induction t with
  | nil => rfl
  | cons s t ih =>
    by_cases h : s.tokenHash = tokenHash <;>
      by_cases hu : s.userId = uid <;>
      simpa [countUser, updateExpiry, List.filter_cons, h, hu] using ih

theorem countUser_append (t1 t2 : List Session) (uid : Int) :
    countUser (t1 ++ t2) uid = countUser t1 uid + countUser t2 uid := by
  simp [countUser, List.filter_append]

theorem countUser_issueSessionTable (t : List Session) (uid : Int) (tokenHash : String)
    (e : Int) (uid' : Int) (h : countUser t uid' ≤ 1) :
    countUser (issueSessionTable t uid tokenHash e) uid' ≤ 1 := by
  rw [issueSessionTable, countUser_append]
  by_cases he : uid = uid'
  · subst he
    rw [countUser_deleteByUser_self]
    simp [countUser, List.filter_cons]
  · have h1 : countUser (deleteByUser t uid) uid' ≤ countUser t uid' :=
      countUser_filter_le t _ uid'
    have h2 : countUser [(⟨tokenHash, uid, e⟩ : Session)] uid' = 0 := by
      simp [countUser, List.filter_cons, he]
    omega

theorem deleteByHash_idem (t : List Session) (tokenHash : String) :
    deleteByHash (deleteByHash t tokenHash) tokenHash = deleteByHash t tokenHash := by
  induction t with
  | nil => rfl
  | cons s t ih =>
    by_cases h : s.tokenHash = tokenHash <;>
      simpa [deleteByHash, List.filter_cons, h] using ih

theorem authCore_sessions_cases (cv tokenHash : String) (t : List Session) (now : Int) :
    (authCore cv tokenHash t now).sessions = t ∨
    (authCore cv tokenHash t now).sessions = deleteByHash t tokenHash ∨
    (authCore cv tokenHash t now).sessions = updateExpiry t tokenHash (now + sessionTTL) := by
  rcases hl : lookupSession t tokenHash with _ | s
  · left; simp [authCore, hl]
  · by_cases h1 : s.expiresAt < now
    · right; left; simp [authCore, hl, h1]
    · by_cases h2 : s.expiresAt - now < sessionRefreshDelta
      · right; right; simp [authCore, hl, h1, h2]
      · left; simp [authCore, hl, h1, h2]

theorem countUser_applyOp (t : List Session) (op : SessionOp)
    (h : ∀ uid, countUser t uid ≤ 1) : ∀ uid, countUser (applyOp t op) uid ≤ 1 := by
  intro uid
  match op with
  | .issue buf userId now =>
    exact countUser_issueSessionTable t userId _ _ uid (h uid)
  | .logout cookie deleteFails =>
    match cookie with
    | Option.none => exact h uid
    | Option.some v =>
      by_cases hv : v = "" <;> by_cases hd : deleteFails <;>
        simp [applyOp, logoutHandler, hv, hd] <;>
        first
          | exact h uid
          | exact le_trans (countUser_filter_le t _ uid) (h uid)
  | .validate cookie now =>
    match cookie with
    | Option.none => exact h uid
    | Option.some v =>
      by_cases hv : v = ""
      · simpa [applyOp, authenticateAndRefreshSession, hv] using h uid
      · have hc := authCore_sessions_cases v (hashSessionToken v) t now
        have : (applyOp t (.validate (Option.some v) now)) =
            (authCore v (hashSessionToken v) t now).sessions := by
          simp [applyOp, authenticateAndRefreshSession, hv]
        rw [this]
        rcases hc with hc | hc | hc <;> rw [hc]
        · exact h uid
        · exact le_trans (countUser_filter_le t _ uid) (h uid)
        · rw [countUser_updateExpiry]; exact h uid

theorem countUser_foldl (ops : List SessionOp) :
    ∀ t : List Session, (∀ uid, countUser t uid ≤ 1) →
      ∀ uid, countUser (ops.foldl applyOp t) uid ≤ 1 := by
  induction ops with
  | nil => intro t h uid; exact h uid
  | cons op ops ih =>
    intro t h uid
    exact ih (applyOp t op) (countUser_applyOp t op h) uid

/-! ### Claim theorems. -/

/-- C5: the materializer copies amount, category and note, keeps the owner,
dates the generated expense at the pre-advance `next_due_date`, and advances
`next_due_date` by one period per frequency with the date library's calendar
semantics (`time.AddDate`): +1 day, +7 days, +1 calendar month, +1 calendar
year; monthly from 2024-01-31 lands on 2024-03-02 per the library's
normalization. -/
theorem recurring_materialization_copies_and_advances :
    ∀ (st : StoreState) (re : RecurringExpenseRow) (d : GoDate),
      processOne noRecFailures st re =
        ⟨st.expenses ++ [⟨re.amount, re.category, re.note, re.nextDueDate, re.userId⟩],
         st.recurring.map (fun r =>
           if r.id == re.id then
             ⟨r.id, r.userId, r.amount, r.category, r.note, r.frequency,
              advanceNextDue re.frequency re.nextDueDate⟩
           else r)⟩ ∧
      advanceNextDue "daily" d = goAddDate d 0 0 1 ∧
      advanceNextDue "weekly" d = goAddDate d 0 0 7 ∧
      advanceNextDue "monthly" d = goAddDate d 0 1 0 ∧
      advanceNextDue "yearly" d = goAddDate d 1 0 0 ∧
      goAddDate ⟨2024, 1, 31⟩ 0 1 0 = ⟨2024, 3, 2⟩ := by
  intro st re d
  refine ⟨rfl, ?_, ?_, ?_, ?_, by decide⟩
  · rw [advanceNextDue, if_pos (by decide)]
  · rw [advanceNextDue, if_neg (by decide), if_pos (by decide)]
  · rw [advanceNextDue, if_neg (by decide), if_neg (by decide), if_pos (by decide)]
  · rw [advanceNextDue, if_neg (by decide), if_neg (by decide), if_neg (by decide),
      if_pos (by decide)]

/-- C10: a stored frequency that is none of daily, weekly, monthly, yearly is
neither an error nor a skip — the switch's default branch advances
`next_due_date` by exactly one day, after inserting the expense as usual. -/
theorem unknown_frequency_defaults_to_one_day :
    ∀ (st : StoreState) (re : RecurringExpenseRow),
      lowerStr re.frequency ≠ "daily" → lowerStr re.frequency ≠ "weekly" →
      lowerStr re.frequency ≠ "monthly" → lowerStr re.frequency ≠ "yearly" →
      advanceNextDue re.frequency re.nextDueDate = goAddDate re.nextDueDate 0 0 1 ∧
      processOne noRecFailures st re =
        ⟨st.expenses ++ [⟨re.amount, re.category, re.note, re.nextDueDate, re.userId⟩],
         st.recurring.map (fun r =>
           if r.id == re.id then
             ⟨r.id, r.userId, r.amount, r.category, r.note, r.frequency,
              goAddDate re.nextDueDate 0 0 1⟩
           else r)⟩ := by
  intro st re h1 h2 h3 h4
  have hadv : advanceNextDue re.frequency re.nextDueDate = goAddDate re.nextDueDate 0 0 1 := by
    rw [advanceNextDue, if_neg h1, if_neg h2, if_neg h3, if_neg h4]
  refine ⟨hadv, ?_⟩
  show applyRecurring st re = _
  rw [applyRecurring, hadv]

/-- C10 witness: a definition with frequency `biweekly` is materialized and its
due date advanced by one day. -/
theorem unknown_frequency_defaults_to_one_day_witness :
    advanceNextDue "biweekly" ⟨2024, 1, 1⟩ = goAddDate ⟨2024, 1, 1⟩ 0 0 1 :=
  (unknown_frequency_defaults_to_one_day ⟨[], []⟩
    ⟨1, 1, 5, "c", "n", "biweekly", ⟨2024, 1, 1⟩⟩
    (by decide) (by decide) (by decide) (by decide)).1

/-- C6: each definition is processed atomically — a failure at any step leaves
the store unchanged for that definition, success commits both writes, and the
loop always continues with the rest of the due definitions. -/
theorem recurring_per_definition_atomicity :
    (∀ (fl : RecFailures) (st : StoreState) (re : RecurringExpenseRow),
      (fl.beginFails = true ∨ fl.insertFails = true ∨ fl.updateFails = true ∨
        fl.commitFails = true) →
      processOne fl st re = st) ∧
    (∀ (fl : RecFailures) (st : StoreState) (re : RecurringExpenseRow),
      fl.beginFails = false → fl.insertFails = false → fl.updateFails = false →
      fl.commitFails = false →
      processOne fl st re = applyRecurring st re) ∧
    (∀ (oracle : Int → RecFailures) (st : StoreState) (re : RecurringExpenseRow)
      (rest : List RecurringExpenseRow),
      List.foldl (fun s r => processOne (oracle r.id) s r) st (re :: rest) =
        List.foldl (fun s r => processOne (oracle r.id) s r)
          (processOne (oracle re.id) st re) rest) := by
  refine ⟨?_, ?_, ?_⟩
  · intro fl st re h
    rcases h with h | h | h | h <;> simp [processOne, h]
  · intro fl st re h1 h2 h3 h4
    simp [processOne, h1, h2, h3, h4]
  · intro oracle st re rest
    rfl

/-- C6 witness: an insert failure on a concrete definition leaves the store
unchanged. -/
theorem recurring_per_definition_atomicity_witness :
    processOne ⟨false, true, false, false⟩ ⟨[], []⟩
      ⟨1, 1, 5, "c", "n", "daily", ⟨2024, 1, 1⟩⟩ = ⟨[], []⟩ :=
  recurring_per_definition_atomicity.1 ⟨false, true, false, false⟩ ⟨[], []⟩
    ⟨1, 1, 5, "c", "n", "daily", ⟨2024, 1, 1⟩⟩ (Or.inr (Or.inl rfl))

/-- C7: logout always answers 204 with a cleared cookie — with an absent or
empty cookie, an absent or present row, or a failing store delete — and a
second logout yields the same outcome (and, when the deletes succeed, the same
table). -/
theorem logout_idempotent_always_204 :
    ∀ (cookie : Option String) (deleteFails : Bool) (t : List Session),
      (logoutHandler cookie deleteFails t).status = 204 ∧
      (logoutHandler cookie deleteFails t).cookie = .clear ∧
      (∀ deleteFails' : Bool,
        (logoutHandler cookie deleteFails'
          (logoutHandler cookie deleteFails t).sessions).status = 204 ∧
        (logoutHandler cookie deleteFails'
          (logoutHandler cookie deleteFails t).sessions).cookie = .clear) ∧
      (logoutHandler cookie false (logoutHandler cookie false t).sessions).sessions =
        (logoutHandler cookie false t).sessions := by
  intro cookie deleteFails t
  match cookie with
  | Option.none => exact ⟨rfl, rfl, fun _ => ⟨rfl, rfl⟩, rfl⟩
  | Option.some v =>
    by_cases hv : v = ""
    · refine ⟨?_, ?_, fun d' => ⟨?_, ?_⟩, ?_⟩ <;> simp [logoutHandler, hv]
    · refine ⟨?_, ?_, fun d' => ⟨?_, ?_⟩, ?_⟩ <;>
        by_cases hd : deleteFails <;>
        simp [logoutHandler, hv, hd, deleteByHash_idem] <;>
        split <;> simp [deleteByHash_idem]

/-- C8: a login with an unknown email and a login with a known email but a
non-matching password produce the same client-visible response:
401 `Invalid credentials`. -/
theorem login_failures_indistinguishable :
    ∀ (users : List UserRow) (verify : String → String → Bool)
      (email1 password1 email2 password2 : String) (u : UserRow),
      findUser users email1 = Option.none →
      findUser users email2 = Option.some u →
      verify u.passwordHash password2 = false →
      loginResult users verify email1 password1 = ⟨401, .text "Invalid credentials"⟩ ∧
      loginResult users verify email2 password2 = ⟨401, .text "Invalid credentials"⟩ ∧
      loginResult users verify email1 password1 = loginResult users verify email2 password2 := by
  intro users verify email1 password1 email2 password2 u h1 h2 hv
  have r1 : loginResult users verify email1 password1 = ⟨401, .text "Invalid credentials"⟩ := by
    rw [loginResult, h1]
  have r2 : loginResult users verify email2 password2 = ⟨401, .text "Invalid credentials"⟩ := by
    rw [loginResult, h2]; simp [hv]
  exact ⟨r1, r2, r1.trans r2.symm⟩

/-- C8 witness: concrete store with one user; unknown email and wrong password
both answer 401 `Invalid credentials`. -/
theorem login_failures_indistinguishable_witness :
    loginResult [⟨1, "a@b.c", "H"⟩] (fun _ _ => false) "x@y.z" "p1" =
      ⟨401, .text "Invalid credentials"⟩ ∧
    loginResult [⟨1, "a@b.c", "H"⟩] (fun _ _ => false) "a@b.c" "p2" =
      ⟨401, .text "Invalid credentials"⟩ :=
  ⟨(login_failures_indistinguishable [⟨1, "a@b.c", "H"⟩] (fun _ _ => false)
      "x@y.z" "p1" "a@b.c" "p2" ⟨1, "a@b.c", "H"⟩ (by decide) (by decide) rfl).1,
   (login_failures_indistinguishable [⟨1, "a@b.c", "H"⟩] (fun _ _ => false)
      "x@y.z" "p1" "a@b.c" "p2" ⟨1, "a@b.c", "H"⟩ (by decide) (by decide) rfl).2.1⟩

/-- C9: `validatePassword` accepts exactly the passwords that are non-empty
after trimming whitespace and whose code-point length lies in [12, 128]; in the
register flow an invalid password is answered 400 before hashing is ever
reached. -/
theorem password_validation_exact_range :
    (∀ p : String, validatePassword p = Option.none ↔ passwordSpecAccepts p) ∧
    (∀ (emailOk : Bool) (p : String) (hashFails dupEmail storeFails : Bool),
      validatePassword p ≠ Option.none →
      registerOutcome emailOk p hashFails dupEmail storeFails = (400, false)) := by
  constructor
  · intro p
    rw [validatePassword, passwordSpecAccepts]
    by_cases h1 : trimSpace p = "" <;> by_cases h2 : p.length < 12 <;>
      by_cases h3 : p.length > 128 <;> simp [h1, h2, h3] <;> omega
  · intro emailOk p hashFails dupEmail storeFails h
    match emailOk with
    | false => rfl
    | true =>
      rw [registerOutcome]
      match hv : validatePassword p with
      | Option.some e => simp
      | Option.none => exact absurd hv h

/-- C9 witness: a too-short password is rejected 400 with no hashing attempt,
even when every later collaborator would succeed. -/
theorem password_validation_exact_range_witness :
    validatePassword "short" ≠ Option.none ∧
    registerOutcome true "short" false false false = (400, false) :=
  ⟨by decide, password_validation_exact_range.2 true "short" false false false (by decide)⟩

/-- C1: after any sequence of register/login/logout/authenticated-request
operations from an empty store, at most one session row exists per user; and
issuing a session for a user removes every row holding an earlier token's hash
of that user, so the old token fails validation with 401. -/
theorem single_session_per_user :
    (∀ (ops : List SessionOp) (uid : Int), countUser (runOps ops) uid ≤ 1) ∧
    (∀ (t : List Session) (uid : Int) (oldHash newHash : String) (e : Int),
      (∀ s ∈ t, s.tokenHash = oldHash → s.userId = uid) →
      newHash ≠ oldHash →
      lookupSession (issueSessionTable t uid newHash e) oldHash = Option.none ∧
      ∀ (cv : String) (now : Int),
        authCore cv oldHash (issueSessionTable t uid newHash e) now =
          ⟨false, 0, 401, issueSessionTable t uid newHash e, .clear⟩) := by
  constructor
  · intro ops uid
    exact countUser_foldl ops [] (fun _ => by simp [countUser]) uid
  · intro t uid oldHash newHash e hOwn hNe
    have hNone : lookupSession (issueSessionTable t uid newHash e) oldHash = Option.none := by
      rw [lookupSession, List.find?_eq_none]
      intro s hs
      rw [issueSessionTable] at hs
      rcases List.mem_append.mp hs with hs | hs
      · rcases List.mem_filter.mp hs with ⟨hmem, hkeep⟩
        simp only [Bool.not_eq_true', beq_eq_false_iff_ne, ne_eq] at hkeep
        intro habs
        exact hkeep (hOwn s hmem (by simpa using habs))
      · rcases List.mem_singleton.mp hs with rfl
        simpa using hNe
    refine ⟨hNone, fun cv now => ?_⟩
    simp [authCore, hNone]

/-- C1 witness: issuing a fresh session for user 1 removes the old token's row,
and validating the old hash afterwards is rejected 401. -/
theorem single_session_per_user_witness :
    lookupSession (issueSessionTable [⟨"oldh", 1, 100⟩] 1 "newh" 200) "oldh" = Option.none ∧
    authCore "tok" "oldh" (issueSessionTable [⟨"oldh", 1, 100⟩] 1 "newh" 200) 50 =
      ⟨false, 0, 401, issueSessionTable [⟨"oldh", 1, 100⟩] 1 "newh" 200, .clear⟩ :=
  ⟨(single_session_per_user.2 [⟨"oldh", 1, 100⟩] 1 "oldh" "newh" 200
      (by decide) (by decide)).1,
   (single_session_per_user.2 [⟨"oldh", 1, 100⟩] 1 "oldh" "newh" 200
      (by decide) (by decide)).2 "tok" 50⟩

/-- C2 counterexample: the claim requires a session with `expires_at ≤ now` to
be deleted and rejected 401, but at `expires_at = now` the code's strict
`now.After(expiresAt)` check accepts the request (and, being within the refresh
window, extends the session instead of deleting it). -/
theorem expired_boundary_counterexample :
    (100 : Int) ≤ 100 ∧
    (authCore "tok" "h1" [⟨"h1", 1, 100⟩] 100).ok = true ∧
    (authCore "tok" "h1" [⟨"h1", 1, 100⟩] 100).status = 200 ∧
    (authCore "tok" "h1" [⟨"h1", 1, 100⟩] 100).sessions = [⟨"h1", 1, 86500⟩] := by
  decide

/-- C2 (amended): on an authenticated request presenting a session whose
`expires_at` is strictly earlier than `now`, validation deletes the row, clears
the cookie and rejects 401; whenever authentication rejects, the wrapped
handler does not run. -/
theorem expired_session_deleted_and_rejected :
    (∀ (cv tokenHash : String) (t : List Session) (now : Int) (s : Session),
      lookupSession t tokenHash = Option.some s →
      s.expiresAt < now →
      authCore cv tokenHash t now = ⟨false, 0, 401, deleteByHash t tokenHash, .clear⟩) ∧
    (∀ (handler : Int → Nat) (cookie : Option String) (t : List Session) (now : Int),
      (authenticateAndRefreshSession cookie t now).ok = false →
      withAuth handler cookie t now =
        .rejected (authenticateAndRefreshSession cookie t now).status) := by
  constructor
  · intro cv tokenHash t now s hl hexp
    simp [authCore, hl, hexp]
  · intro handler cookie t now h
    rw [withAuth, if_neg (by simp [h])]

/-- C2 witness: a session one second past expiry is deleted and the request
rejected 401; with no cookie at all, the wrapped handler does not run. -/
theorem expired_session_deleted_and_rejected_witness :
    authCore "tok" "h1" [⟨"h1", 1, 50⟩] 51 =
      ⟨false, 0, 401, deleteByHash [⟨"h1", 1, 50⟩] "h1", .clear⟩ ∧
    withAuth (fun u => u.toNat) Option.none [] 0 =
      .rejected (authenticateAndRefreshSession Option.none [] 0).status :=
  ⟨expired_session_deleted_and_rejected.1 "tok" "h1" [⟨"h1", 1, 50⟩] 51 ⟨"h1", 1, 50⟩
      (by decide) (by decide),
   expired_session_deleted_and_rejected.2 (fun u => u.toNat) Option.none [] 0 rfl⟩

/-- C3: on a valid authenticated request, a session with remaining lifetime
strictly below `sessionTTL / 3` has its expiry set to `now + sessionTTL` and
the cookie re-set with the same raw token; with remaining lifetime at least
`sessionTTL / 3` the table and cookie are untouched; `updateExpiry` never
changes a row's token hash or owner. -/
theorem near_expiry_session_refreshed :
    (∀ (cv tokenHash : String) (t : List Session) (now : Int) (s : Session),
      lookupSession t tokenHash = Option.some s →
      ¬s.expiresAt < now →
      (s.expiresAt - now < sessionRefreshDelta →
        authCore cv tokenHash t now =
          ⟨true, s.userId, 200, updateExpiry t tokenHash (now + sessionTTL),
           .set cv (now + sessionTTL)⟩) ∧
      (sessionRefreshDelta ≤ s.expiresAt - now →
        authCore cv tokenHash t now = ⟨true, s.userId, 200, t, .none⟩)) ∧
    (∀ (t : List Session) (tokenHash : String) (e : Int),
      (updateExpiry t tokenHash e).map (fun s => (s.tokenHash, s.userId)) =
        t.map (fun s => (s.tokenHash, s.userId))) := by
  constructor
  · intro cv tokenHash t now s hl hexp
    constructor
    · intro hnear
      simp [authCore, hl, hexp, hnear]
    · intro hfar
      simp [authCore, hl, hexp, not_lt.mpr hfar]
  · intro t tokenHash e
    induction t with
    | nil => rfl
    | cons s t ih =>
      by_cases h : s.tokenHash = tokenHash <;> simpa [updateExpiry, h] using ih

/-- C3 witness: a session 10 seconds from expiry is refreshed to `now + TTL`
with the same raw token in the cookie; one 30000 seconds from expiry is left
untouched. -/
theorem near_expiry_session_refreshed_witness :
    authCore "tok" "h1" [⟨"h1", 1, 100⟩] 90 =
      ⟨true, 1, 200, updateExpiry [⟨"h1", 1, 100⟩] "h1" 86490, .set "tok" 86490⟩ ∧
    authCore "tok" "h1" [⟨"h1", 1, 30100⟩] 100 = ⟨true, 1, 200, [⟨"h1", 1, 30100⟩], .none⟩ :=
  ⟨(near_expiry_session_refreshed.1 "tok" "h1" [⟨"h1", 1, 100⟩] 90 ⟨"h1", 1, 100⟩
      (by decide) (by decide)).1 (by decide),
   (near_expiry_session_refreshed.1 "tok" "h1" [⟨"h1", 1, 30100⟩] 100 ⟨"h1", 1, 30100⟩
      (by decide) (by decide)).2 (by decide)⟩

/-- C4: issuing a session stores only the hex-encoded SHA-256 hash of the raw
token — the stored hash has 64 characters, the raw token 43, so the raw value
itself is never what is persisted — and validation recomputes the same hash
from the presented cookie and looks the row up by it. -/
theorem token_stored_only_hashed :
    ∀ (buf : List Nat) (uid now : Int) (t : List Session), buf.length = 32 →
      (issueSession buf uid now t).1 =
        issueSessionTable t uid (hashSessionToken (base64RawUrlEncode buf))
          (now + sessionTTL) ∧
      (issueSession buf uid now t).2 = .set (base64RawUrlEncode buf) (now + sessionTTL) ∧
      (hashSessionToken (base64RawUrlEncode buf)).length = 64 ∧
      (base64RawUrlEncode buf).length = 43 ∧
      hashSessionToken (base64RawUrlEncode buf) ≠ base64RawUrlEncode buf ∧
      ∀ (v : String) (t' : List Session) (now' : Int), v ≠ "" →
        authenticateAndRefreshSession (Option.some v) t' now' =
          authCore v (hashSessionToken v) t' now' := by
  intro buf uid now t hl
  have h64 : (hashSessionToken (base64RawUrlEncode buf)).length = 64 :=
    hashSessionToken_length _
  have h43 : (base64RawUrlEncode buf).length = 43 := base64RawUrlEncode_length32 buf hl
  refine ⟨rfl, rfl, h64, h43, ?_, ?_⟩
  · intro habs
    rw [habs, h43] at h64
    exact absurd h64 (by decide)
  · intro v t' now' hv
    rw [authenticateAndRefreshSession, if_neg hv]

/-- C4 witness: a concrete 32-byte buffer yields a 43-character raw token whose
persisted form is its 64-character hash, distinct from the raw token. -/
theorem token_stored_only_hashed_witness :
    (List.replicate 32 0).length = 32 ∧
    (hashSessionToken (base64RawUrlEncode (List.replicate 32 0))).length = 64 ∧
    (base64RawUrlEncode (List.replicate 32 0)).length = 43 ∧
    hashSessionToken (base64RawUrlEncode (List.replicate 32 0)) ≠
      base64RawUrlEncode (List.replicate 32 0) :=
  ⟨by decide,
   (token_stored_only_hashed (List.replicate 32 0) 1 0 [] (by decide)).2.2.1,
   (token_stored_only_hashed (List.replicate 32 0) 1 0 [] (by decide)).2.2.2.1,
   (token_stored_only_hashed (List.replicate 32 0) 1 0 [] (by decide)).2.2.2.2.1⟩

end ExpenseTracker
